import Mathlib

/-!
Shallow embedding of the EVSE load-balancer power-allocation core.

The repository provides the abstract device-driver interface
(`custom_components/evse_load_balancer/chargers/charger.py`) and the unit
tests of the allocator (`tests/test_power_allocator.py`).  The allocator
implementation itself (`power_allocator.py`, classes `PowerAllocator` and
`ChargerState`) is not part of the available sources, so its operations are
modelled from the specification (sections 3, 4 and 8 of spec.md), and every
model definition is checked below against the concrete expectations of the
unit tests that are available (see the `model_matches_test_*` theorems).
-/

namespace EvseLB

/-- One of the three electrical line identifiers (`const.Phase`). -/
inductive Phase where
  | L1
  | L2
  | L3
deriving DecidableEq, Repr

/-- A complete per-phase map: all three keys are always present together
(partial phase maps are invalid per the spec's data model). -/
structure PerPhase (α : Type) where
  L1 : α
  L2 : α
  L3 : α
deriving DecidableEq, Repr

/-- The per-phase map assigning the same value to all three phases
(`dict.fromkeys(Phase, x)` in the tests). -/
def PerPhase.const {α : Type} (x : α) : PerPhase α :=
  ⟨x, x, x⟩

/-- Modelled from the spec: the device-driver capability set consumed by the
core (abstract class `Charger` in `chargers/charger.py`).  The core never
drives the device, it only reads these capabilities, so the driver is
modelled as a record of the values its query methods return during one pass:
`can_charge()`, `get_current_limit()`, `get_max_current_limit()`,
`has_synced_phase_limits()`, and the stable identifier `id`. -/
structure Charger where
  id : String
  can_charge : Bool
  get_current_limit : Option (PerPhase Int)
  get_max_current_limit : Option (PerPhase Int)
  has_synced_phase_limits : Bool
deriving DecidableEq, Repr

/-- Modelled from the spec: the per-device mutable state record
(`ChargerState` of the missing `power_allocator.py`), with the fields
asserted by the unit tests. -/
structure ChargerState where
  charger : Charger
  initialized : Bool := false
  requested_current : Option (PerPhase Int) := none
  last_calculated_current : Option (PerPhase Int) := none
  last_applied_current : Option (PerPhase Int) := none
  last_update_time : Option Int := none
  manual_override_detected : Bool := false
  active_session : Bool := false
deriving DecidableEq, Repr

/-- Modelled from the spec: the initialization step — read the device's
actual current limit; on success set `requested_current` and
`last_applied_current` to that value and mark `initialized`; on failure
(read yields no value) leave the record untouched (deferred
initialization, not an error).  This is the body of the Python
`add_charger_and_initialize` and of the lazy initialization performed on
first allocation. -/
def ChargerState.init_from_device (s : ChargerState) : ChargerState :=
  match s.charger.get_current_limit with
  | some v =>
      { s with
        requested_current := some v
        last_applied_current := some v
        initialized := true }
  | none => s

/-- Modelled from the spec: run the initialization step only when the record
is still uninitialized. -/
def ChargerState.ensure_init (s : ChargerState) : ChargerState :=
  if s.initialized then s else s.init_from_device

/-- Modelled from the spec: the lazy-initialization attempt a record
undergoes at the start of an allocation pass — only devices that can charge
are touched; all others are left exactly as they are. -/
def ChargerState.postInit (s : ChargerState) : ChargerState :=
  if s.charger.can_charge then s.ensure_init else s

/-- Modelled from the spec: a record participates in allocation when its
device can charge, it is initialized, and its tracked current maps are
populated ("excluded from participation until initialized"). -/
def ChargerState.participating (s : ChargerState) : Bool :=
  s.charger.can_charge && s.initialized &&
    s.requested_current.isSome && s.last_applied_current.isSome

/-- Modelled from the spec: the override/session state machine of
section 4.4, executed per device on each poll tick (`detect_manual_override`
on `ChargerState`).  Session start takes priority over the override
comparison; a missing reported limit is treated as "no change observable". -/
def ChargerState.detect_manual_override (s : ChargerState) : ChargerState :=
  let current := s.charger.can_charge
  let actual := s.charger.get_current_limit
  if current && !s.active_session then
    { s with
      requested_current :=
        match s.charger.get_max_current_limit with
        | some m => some m
        | none => s.requested_current
      active_session := true
      manual_override_detected := false }
  else if !current then
    { s with
      active_session := false
      requested_current :=
        match actual with
        | some a => some a
        | none => s.requested_current
      manual_override_detected := false }
  else
    match actual with
    | none => s
    | some a =>
        if s.last_applied_current = some a then
          { s with manual_override_detected := false }
        else
          { s with
            requested_current := some a
            manual_override_detected := true }

/-- Modelled from the spec: the allocator instance, owning the registry of
device records keyed by the device identifier (`PowerAllocator._chargers`,
a dict in Python, modelled as an association list with unique keys). -/
structure PowerAllocator where
  chargers : List (String × ChargerState) := []
deriving DecidableEq, Repr

/-- Lookup of a record by device identifier in the registry. -/
def lookupState : List (String × ChargerState) → String → Option ChargerState
  | [], _ => none
  | (k, v) :: rest, cid => if k = cid then some v else lookupState rest cid

/-- Modelled from the spec: `register(device)` (`PowerAllocator.add_charger`):
creates an uninitialized record for a new device identifier, keyed by the
charger's `id`; returns false and makes no change if the identifier already
exists. -/
def PowerAllocator.add_charger (pa : PowerAllocator) (c : Charger) :
    Bool × PowerAllocator :=
  if (lookupState pa.chargers c.id).isSome then
    (false, pa)
  else
    (true, ⟨pa.chargers ++ [(c.id, { charger := c })]⟩)

/-- Modelled from the spec: `register_and_initialize(device)` (Python name
`add_charger_and_initialize`): register, then attempt the initialization
read.  Duplicate identifiers are rejected unchanged. -/
def PowerAllocator.add_charger_and_init (pa : PowerAllocator) (c : Charger) :
    Bool × PowerAllocator :=
  if (lookupState pa.chargers c.id).isSome then
    (false, pa)
  else
    (true,
     ⟨pa.chargers ++ [(c.id, ChargerState.init_from_device { charger := c })]⟩)

/-- Modelled from the spec: `should_monitor()` — true iff at least one
registered device currently reports that it can charge. -/
def PowerAllocator.should_monitor (pa : PowerAllocator) : Bool :=
  pa.chargers.any (fun p => p.2.charger.can_charge)

/-- Modelled from the spec: `update_applied_current(device_id, values,
timestamp)` — record that `values` is now actually in effect: set
`last_applied_current = values` and `last_update_time = timestamp` on the
identified record. -/
def PowerAllocator.update_applied_current (pa : PowerAllocator) (cid : String)
    (values : PerPhase Int) (timestamp : Int) : PowerAllocator :=
  ⟨pa.chargers.map (fun p =>
    if p.1 = cid then
      (p.1, { p.2 with
              last_applied_current := some values
              last_update_time := some timestamp })
    else p)⟩

/-- Clamp `x` into the interval `[lo, hi]`. -/
def clamp (x lo hi : Int) : Int :=
  max lo (min x hi)

/-- Modelled from the spec: a participant's proportional share of the phase
delta, `floor(avail * usage / total)` — Python's floor division `//`,
i.e. `Int.fdiv` (rounding toward negative infinity, not toward zero). -/
def share (avail usage total : Int) : Int :=
  Int.fdiv (avail * usage) total

/-- Modelled from the spec: the upper clamp bound for a device on a phase,
`min(requested, max_current)` when the driver reports a hard ceiling, and
just the requested ceiling when it does not. -/
def upperLimit (req : Int) : Option Int → Int
  | some m => min req m
  | none => req

/-- Modelled from the spec: the per-phase candidate limit of one participant:
when the total usage on the phase is zero the adjustment is skipped (the
usage is kept); otherwise `usage + share`, clamped to
`[0, min(requested, max_current)]`. -/
def candidateOn (avail total usage req : Int) (maxc : Option Int) : Int :=
  if total = 0 then usage
  else clamp (usage + share avail usage total) 0 (upperLimit req maxc)

/-- Modelled from the spec: the three independently clamped per-phase
candidates of one participating record (`none` for a non-participant). -/
def deviceCandidates (avail total : PerPhase Int) (s : ChargerState) :
    Option (PerPhase Int) :=
  if s.participating then
    match s.last_applied_current, s.requested_current with
    | some u, some r =>
        let mx := s.charger.get_max_current_limit
        some ⟨candidateOn avail.L1 total.L1 u.L1 r.L1 (mx.map PerPhase.L1),
              candidateOn avail.L2 total.L2 u.L2 r.L2 (mx.map PerPhase.L2),
              candidateOn avail.L3 total.L3 u.L3 r.L3 (mx.map PerPhase.L3)⟩
    | _, _ => none
  else none

/-- Modelled from the spec: per-device finalization — a device with synced
(independently settable) per-phase limits takes each candidate directly; a
device accepting only one uniform limit takes the minimum of the three
candidates on all three phases. -/
def finalizeLimits (synced : Bool) (cand : PerPhase Int) : PerPhase Int :=
  if synced then cand
  else PerPhase.const (min cand.L1 (min cand.L2 cand.L3))

/-- Modelled from the spec: the full new limit computed for one record
during an allocation pass, or `none` when the record does not participate. -/
def allocateFor (avail total : PerPhase Int) (s : ChargerState) :
    Option (PerPhase Int) :=
  (deviceCandidates avail total s).map
    (finalizeLimits s.charger.has_synced_phase_limits)

/-- Modelled from the spec: the registry after the lazy-initialization
attempts at the start of an allocation pass. -/
def PowerAllocator.lazy_init (pa : PowerAllocator) : PowerAllocator :=
  ⟨pa.chargers.map (fun p => (p.1, p.2.postInit))⟩

/-- Modelled from the spec: the per-phase totals of the participants'
confirmed draws (`total = sum(usage[d])`, with
`usage[d] = last_applied_current[phase]`). -/
def PowerAllocator.phase_totals (pa : PowerAllocator) : PerPhase Int :=
  pa.chargers.foldl
    (fun acc p =>
      if p.2.participating then
        match p.2.last_applied_current with
        | some u => ⟨acc.L1 + u.L1, acc.L2 + u.L2, acc.L3 + u.L3⟩
        | none => acc
      else acc)
    ⟨0, 0, 0⟩

/-- Modelled from the spec: `update_allocation(available)` — lazily
initialize, compute the participants' proportional candidates per phase,
finalize per device, store the result in `last_calculated_current`, and
return the new limits keyed by device identifier.  Non-participants are
left untouched and absent from the result. -/
def PowerAllocator.update_allocation (pa : PowerAllocator)
    (avail : PerPhase Int) : PowerAllocator × List (String × PerPhase Int) :=
  let pa1 := pa.lazy_init
  let t := pa1.phase_totals
  (⟨pa1.chargers.map (fun p =>
      match allocateFor avail t p.2 with
      | some v => (p.1, { p.2 with last_calculated_current := some v })
      | none => p)⟩,
   pa1.chargers.filterMap (fun p =>
      (allocateFor avail t p.2).map (fun v => (p.1, v))))

/-! Concrete instances used by the test-conformance checks and by the
witnesses of the theorems below.  They mirror the `MockCharger` setups of
`tests/test_power_allocator.py` (initial limit 10 A or 16 A, maximum limit
16 A, one uniform limit across the phases). -/

/-- A charger as in the tests: id `charger1`, able to charge, reporting a
limit of 10 A on each phase, maximum 16 A, uniform (unsynced) limits. -/
def exCharger : Charger := ⟨"charger1", true, some ⟨10,10,10⟩, some ⟨16,16,16⟩, false⟩

/-- A second charger, id `charger2`, reporting 16 A on each phase. -/
def exCharger2 : Charger := ⟨"charger2", true, some ⟨16,16,16⟩, some ⟨16,16,16⟩, false⟩

/-- A charger reporting 16 A on each phase under the id `charger1`. -/
def exChargerHigh : Charger := ⟨"charger1", true, some ⟨16,16,16⟩, some ⟨16,16,16⟩, false⟩

/-- A charger whose limit read yields no value (initialization failure). -/
def exChargerNoRead : Charger := ⟨"charger1", true, none, some ⟨16,16,16⟩, false⟩

/-- A charger initialized to 7/8/10 A, as in the recovery test. -/
def exChargerReduced : Charger := ⟨"charger1", true, some ⟨7,8,10⟩, some ⟨16,16,16⟩, false⟩

/-- A record in steady active state: 10 A applied, device now reports 16 A. -/
def exStateActive : ChargerState :=
  { charger := exChargerHigh, initialized := true,
    requested_current := some ⟨10,10,10⟩,
    last_applied_current := some ⟨10,10,10⟩, active_session := true }

/-- A record without an active session whose device can charge. -/
def exStateIdle : ChargerState :=
  { charger := exCharger, initialized := true,
    requested_current := some ⟨10,10,10⟩,
    last_applied_current := some ⟨10,10,10⟩, active_session := false }

/-- The recovery-test record: limits 7/8/10 A applied, 16 A requested. -/
def exStateRecovery : ChargerState :=
  { (ChargerState.init_from_device { charger := exChargerReduced }) with
    requested_current := some ⟨16,16,16⟩ }

/-- The empty allocator. -/
def emptyPA : PowerAllocator := ⟨[]⟩

/-- An allocator holding one initialized record for `exCharger`. -/
def exPA : PowerAllocator :=
  ⟨[("charger1", ChargerState.init_from_device { charger := exCharger })]⟩

/-- An allocator holding one still-uninitialized record for `exCharger`. -/
def exPA0 : PowerAllocator := ⟨[("charger1", { charger := exCharger })]⟩

/-- An allocator with two records registered without initialization, as in
`test_multiple_chargers_allocation`. -/
def exPAmulti : PowerAllocator :=
  ((emptyPA.add_charger exCharger).2.add_charger exCharger2).2

/-- A charger with synced (independently settable) per-phase limits, id
`charger3`, reporting 10 A on each phase, maximum 16 A. -/
def exChargerSynced : Charger := ⟨"charger3", true, some ⟨10,10,10⟩, some ⟨16,16,16⟩, true⟩

/-- A mixed registry: one uniform-limit device and one synced-limit device
initialized side by side. -/
def exPAmixed : PowerAllocator :=
  ⟨[("charger1", ChargerState.init_from_device { charger := exCharger }),
    ("charger3", ChargerState.init_from_device { charger := exChargerSynced })]⟩

/-! Conformance of the spec-modelled definitions with the unit tests that
ship with the repository. -/

/-- The model reproduces `test_update_allocation_overcurrent`: one charger
at 10 A, deltas (-8, -2, 2), result 2 A on every phase. -/
theorem model_matches_test_overcurrent :
    (exPA.update_allocation ⟨-8,-2,2⟩).2 = [("charger1", ⟨2,2,2⟩)] := by
  decide

/-- The model reproduces `test_update_allocation_recovery`: applied 7/8/10 A,
requested 16 A, deltas (5, 5, 5), result 12 A on every phase. -/
theorem model_matches_test_recovery :
    ((⟨[("charger1", exStateRecovery)]⟩ : PowerAllocator).update_allocation
      ⟨5,5,5⟩).2 = [("charger1", ⟨12,12,12⟩)] := by
  decide

/-- The model reproduces `test_multiple_chargers_allocation`: chargers at
10 A and 16 A registered without initialization, deltas (-10, -4, 0),
results 6 A and 9 A. -/
theorem model_matches_test_multiple :
    (exPAmulti.update_allocation ⟨-10,-4,0⟩).2 =
      [("charger1", ⟨6,6,6⟩), ("charger2", ⟨9,9,9⟩)] := by
  decide

/-- In a mixed registry the uniform-limit device receives the minimum on
all three phases while the synced-limit device receives its per-phase
candidates unchanged, within one and the same allocation pass. -/
theorem model_mixed_registry :
    (exPAmixed.update_allocation ⟨-8,-2,2⟩).2 =
      [("charger1", ⟨6,6,6⟩), ("charger3", ⟨6,9,10⟩)] := by
  decide

/-- The model reproduces `test_manual_override_detection`: 10 A applied,
device reports 16 A during an active session — override detected and the
requested current mirrors the reported limit. -/
theorem model_matches_test_override :
    (exStateActive.detect_manual_override).manual_override_detected = true ∧
    (exStateActive.detect_manual_override).requested_current = some ⟨16,16,16⟩ := by
  decide

/-! Helper lemmas. -/

lemma fdiv_pair_bounds (a u1 u2 : Int) (h : 0 < u1 + u2) :
    Int.fdiv (a * u1) (u1 + u2) + Int.fdiv (a * u2) (u1 + u2) ≤ a ∧
    a - 1 ≤ Int.fdiv (a * u1) (u1 + u2) + Int.fdiv (a * u2) (u1 + u2) := by
  set t := u1 + u2 with ht
  have e1 := Int.fmod_add_fdiv (a * u1) t
  have e2 := Int.fmod_add_fdiv (a * u2) t
  have r1nn : 0 ≤ (a * u1).fmod t := Int.fmod_nonneg' _ h
  have r2nn : 0 ≤ (a * u2).fmod t := Int.fmod_nonneg' _ h
  have r1lt : (a * u1).fmod t < t := Int.fmod_lt_of_pos _ h
  have r2lt : (a * u2).fmod t < t := Int.fmod_lt_of_pos _ h
  have hsum : (a * u1).fmod t + (a * u2).fmod t
      + t * ((a * u1).fdiv t + (a * u2).fdiv t) = a * t := by
    have : a * u1 + a * u2 = a * t := by ring
    nlinarith [e1, e2]
  constructor
  · nlinarith [hsum, r1nn, r2nn, h]
  · nlinarith [hsum, r1lt, r2lt, h]

lemma lookupState_append_self (l : List (String × ChargerState)) (k : String)
    (v : ChargerState) (h : lookupState l k = none) :
    lookupState (l ++ [(k, v)]) k = some v := by
  induction l with
  | nil => simp [lookupState]
  | cons hd tl ih =>
      obtain ⟨k', v'⟩ := hd
      by_cases hk : k' = k
      · simp [lookupState, hk] at h
      · simp [lookupState, hk] at h ⊢
        exact ih h

lemma postInit_charger (s : ChargerState) : (s.postInit).charger = s.charger := by
  simp only [ChargerState.postInit, ChargerState.ensure_init,
    ChargerState.init_from_device]
  split
  · split
    · rfl
    · split <;> rfl
  · rfl

lemma postInit_of_initialized (s : ChargerState) (h : s.initialized = true) :
    s.postInit = s := by
  simp only [ChargerState.postInit, ChargerState.ensure_init, h, if_true]
  split <;> rfl

lemma postInit_not_participating (s : ChargerState)
    (h : (s.postInit).participating = false) : s.postInit = s := by
  by_cases hc : s.charger.can_charge = true
  · by_cases hi : s.initialized = true
    · exact postInit_of_initialized s hi
    · simp only [ChargerState.postInit, hc, if_true, ChargerState.ensure_init, hi,
        Bool.false_eq_true, if_false] at h ⊢
      cases hlim : s.charger.get_current_limit with
      | none => simp [ChargerState.init_from_device, hlim]
      | some v =>
          exfalso
          simp [ChargerState.init_from_device, hlim, ChargerState.participating, hc] at h
  · simp [ChargerState.postInit, hc]

lemma participating_spec (s : ChargerState) (h : s.participating = true) :
    s.charger.can_charge = true ∧ s.initialized = true ∧
    s.requested_current.isSome = true ∧ s.last_applied_current.isSome = true := by
  simp only [ChargerState.participating, Bool.and_eq_true] at h
  exact ⟨h.1.1.1, h.1.1.2, h.1.2, h.2⟩

lemma deviceCandidates_none (avail total : PerPhase Int) (s : ChargerState)
    (h : s.participating = false) : deviceCandidates avail total s = none := by
  simp [deviceCandidates, h]

lemma allocateFor_some_participating (avail total : PerPhase Int) (s : ChargerState)
    (v : PerPhase Int) (h : allocateFor avail total s = some v) :
    s.participating = true := by
  by_contra hn
  rw [Bool.not_eq_true] at hn
  simp [allocateFor, deviceCandidates_none avail total s hn] at h

lemma nodup_keys_eq {l : List (String × ChargerState)}
    (hnd : (l.map Prod.fst).Nodup) {k : String} {a b : ChargerState}
    (ha : (k, a) ∈ l) (hb : (k, b) ∈ l) : a = b := by
  induction l with
  | nil => cases ha
  | cons hd tl ih =>
      rw [List.map_cons, List.nodup_cons] at hnd
      rcases List.mem_cons.mp ha with ha1 | ha2
      · rcases List.mem_cons.mp hb with hb1 | hb2
        · rw [← ha1] at hb1
          injection hb1 with h1 h2
          exact h2.symm
        · exfalso
          apply hnd.1
          rw [← ha1]
          simpa using List.mem_map_of_mem Prod.fst hb2
      · rcases List.mem_cons.mp hb with hb1 | hb2
        · exfalso
          apply hnd.1
          rw [← hb1]
          simpa using List.mem_map_of_mem Prod.fst ha2
        · exact ih hnd.2 ha2 hb2

/-! The claims. -/

/-- Claim C1: in an allocation pass with exactly two participants on one
phase, with usages `u1, u2` (total positive) and phase delta `a`, each
device's share is `floor(a * u_i / (u1 + u2))`, and the sum of the two
shares has magnitude at least `|a|` when `a < 0` (flooring never
under-corrects overcurrent) and magnitude at most `a` when `a > 0`
(flooring never over-grants headroom). -/
theorem two_device_share_bounds (a u1 u2 : Int) (h : 0 < u1 + u2) :
    share a u1 (u1 + u2) = Int.fdiv (a * u1) (u1 + u2) ∧
    share a u2 (u1 + u2) = Int.fdiv (a * u2) (u1 + u2) ∧
    (a < 0 → |a| ≤ |share a u1 (u1 + u2) + share a u2 (u1 + u2)|) ∧
    (0 < a → |share a u1 (u1 + u2) + share a u2 (u1 + u2)| ≤ a) := by
  obtain ⟨hle, hge⟩ := fdiv_pair_bounds a u1 u2 h
  refine ⟨rfl, rfl, ?_, ?_⟩
  · intro ha
    have hs : share a u1 (u1 + u2) + share a u2 (u1 + u2) < 0 := by
      simp only [share]; omega
    rw [abs_of_neg ha, abs_of_neg hs]
    simp only [share] at *
    omega
  · intro ha
    have hs : 0 ≤ share a u1 (u1 + u2) + share a u2 (u1 + u2) := by
      simp only [share]; omega
    rw [abs_of_nonneg hs]
    simp only [share] at *
    omega

theorem two_device_share_bounds_witness :
    0 < (10 : Int) + 16 ∧
    (share (-10) 10 ((10 : Int) + 16) = Int.fdiv ((-10) * 10) ((10 : Int) + 16) ∧
     share (-10) 16 ((10 : Int) + 16) = Int.fdiv ((-10) * 16) ((10 : Int) + 16) ∧
     ((-10 : Int) < 0 →
       |(-10 : Int)| ≤ |share (-10) 10 ((10 : Int) + 16) + share (-10) 16 ((10 : Int) + 16)|) ∧
     ((0 : Int) < -10 →
       |share (-10) 10 ((10 : Int) + 16) + share (-10) 16 ((10 : Int) + 16)| ≤ -10)) :=
  ⟨by decide, two_device_share_bounds (-10) 10 16 (by decide)⟩

/-- Claim C2: with exactly one participant on a phase (so the phase total
equals its usage `u > 0`) and integer delta `a`, the device's per-phase
candidate limit — computed before the uniform-limit minimum step — equals
`clamp(u + a, 0, min(requested, max))`: the proportional share is exact
with one participant. -/
theorem single_participant_candidate (a u r m : Int) (hu : 0 < u) :
    candidateOn a u u r (some m) = clamp (u + a) 0 (min r m) := by
  have hne : u ≠ 0 := ne_of_gt hu
  simp [candidateOn, share, upperLimit, hne, Int.mul_fdiv_cancel a hne]

theorem single_participant_candidate_witness :
    0 < (10 : Int) ∧ candidateOn (-8) 10 10 10 (some 16) = clamp (10 + -8) 0 (min 10 16) :=
  ⟨by decide, single_participant_candidate (-8) 10 10 16 (by decide)⟩

/-- Claim C3: for every device whose `has_synced_phase_limits()` is false —
also in a mixed registry containing synced-limit devices — the value
returned by `update_allocation` for that device is identical on all three
phases and equals the minimum of its three independently clamped per-phase
candidates.  The registry keys are unique, as for the Python dict. -/
theorem update_allocation_unsynced_uniform (pa : PowerAllocator) (avail : PerPhase Int)
    (cid : String) (s : ChargerState) (v : PerPhase Int)
    (hnd : (pa.chargers.map Prod.fst).Nodup)
    (hs : (cid, s) ∈ pa.chargers)
    (hsync : s.charger.has_synced_phase_limits = false)
    (hmem : (cid, v) ∈ (pa.update_allocation avail).2) :
    (v.L1 = v.L2 ∧ v.L2 = v.L3) ∧
    ∃ cand, deviceCandidates avail pa.lazy_init.phase_totals s.postInit = some cand ∧
      v = PerPhase.const (min cand.L1 (min cand.L2 cand.L3)) := by
  simp only [PowerAllocator.update_allocation] at hmem
  rw [List.mem_filterMap] at hmem
  obtain ⟨p, hp, hfp⟩ := hmem
  rw [Option.map_eq_some'] at hfp
  obtain ⟨w, hw, hpw⟩ := hfp
  injection hpw with hcid hv
  -- identify the lazily-initialized record p with this device's record s
  simp only [PowerAllocator.lazy_init] at hp
  rw [List.mem_map] at hp
  obtain ⟨q, hq, hgq⟩ := hp
  have hq1 : q.1 = cid := by
    have := congrArg Prod.fst hgq
    simpa [hcid] using this
  have hq2 : q.2 = s := by
    apply nodup_keys_eq hnd _ hs
    rw [← hq1]
    simpa using hq
  have hps : p.2 = s.postInit := by
    have := congrArg Prod.snd hgq
    simp at this
    rw [← this, hq2]
  have hsync' : p.2.charger.has_synced_phase_limits = false := by
    rw [hps, postInit_charger]
    exact hsync
  simp only [allocateFor, Option.map_eq_some'] at hw
  obtain ⟨cand, hcand, hfin⟩ := hw
  rw [hsync'] at hfin
  simp only [finalizeLimits, Bool.false_eq_true, if_false] at hfin
  subst hv
  rw [← hfin]
  rw [hps] at hcand
  exact ⟨⟨rfl, rfl⟩, cand, hcand, rfl⟩

theorem update_allocation_unsynced_uniform_witness :
    (exPAmixed.chargers.map Prod.fst).Nodup ∧
    ("charger1", ChargerState.init_from_device { charger := exCharger }) ∈
      exPAmixed.chargers ∧
    (ChargerState.init_from_device
      { charger := exCharger }).charger.has_synced_phase_limits = false ∧
    ("charger1", (⟨6,6,6⟩ : PerPhase Int)) ∈ (exPAmixed.update_allocation ⟨-8,-2,2⟩).2 ∧
    (((⟨6,6,6⟩ : PerPhase Int).L1 = (⟨6,6,6⟩ : PerPhase Int).L2 ∧
      (⟨6,6,6⟩ : PerPhase Int).L2 = (⟨6,6,6⟩ : PerPhase Int).L3) ∧
     ∃ cand, deviceCandidates ⟨-8,-2,2⟩ exPAmixed.lazy_init.phase_totals
         (ChargerState.init_from_device { charger := exCharger }).postInit = some cand ∧
       (⟨6,6,6⟩ : PerPhase Int) =
         PerPhase.const (min cand.L1 (min cand.L2 cand.L3))) :=
  ⟨by decide, by decide, by decide, by decide,
   update_allocation_unsynced_uniform exPAmixed ⟨-8,-2,2⟩ "charger1"
     (ChargerState.init_from_device { charger := exCharger }) ⟨6,6,6⟩
     (by decide) (by decide) (by decide) (by decide)⟩

/-- Claim C4 (amended): in a registry with unique identifiers, a device
appears in the result of `update_allocation` only if it can charge and is
initialized once the pass's lazy-initialization attempt has run; every
registered device that does not participate after that attempt is absent
from the result and its record is left completely unchanged. -/
theorem update_allocation_participation (pa : PowerAllocator) (avail : PerPhase Int)
    (hnd : (pa.chargers.map Prod.fst).Nodup) :
    (∀ cid v, (cid, v) ∈ (pa.update_allocation avail).2 →
       ∃ s, (cid, s) ∈ pa.lazy_init.chargers ∧
         s.charger.can_charge = true ∧ s.initialized = true) ∧
    (∀ cid s, (cid, s) ∈ pa.chargers → (s.postInit).participating = false →
       (cid, s) ∈ (pa.update_allocation avail).1.chargers ∧
       ∀ v, (cid, v) ∉ (pa.update_allocation avail).2) := by
  constructor
  · intro cid v hmem
    simp only [PowerAllocator.update_allocation] at hmem
    rw [List.mem_filterMap] at hmem
    obtain ⟨p, hp, hfp⟩ := hmem
    rw [Option.map_eq_some'] at hfp
    obtain ⟨w, hw, hpw⟩ := hfp
    injection hpw with hcid hv
    have hpart := allocateFor_some_participating _ _ _ _ hw
    obtain ⟨h1, h2, _, _⟩ := participating_spec _ hpart
    exact ⟨p.2, by rw [← hcid]; simpa using hp, h1, h2⟩
  · intro cid s hs hnp
    have heq : s.postInit = s := postInit_not_participating s hnp
    have hnp' : s.participating = false := by rw [heq] at hnp; exact hnp
    have hmem1 : (cid, s) ∈ pa.lazy_init.chargers := by
      simp only [PowerAllocator.lazy_init]
      rw [List.mem_map]
      exact ⟨(cid, s), hs, by simp [heq]⟩
    have hnone : allocateFor avail pa.lazy_init.phase_totals s = none := by
      simp [allocateFor, deviceCandidates_none _ _ _ hnp']
    constructor
    · simp only [PowerAllocator.update_allocation]
      rw [List.mem_map]
      refine ⟨(cid, s), hmem1, ?_⟩
      simp [hnone]
    · intro v hv
      simp only [PowerAllocator.update_allocation] at hv
      rw [List.mem_filterMap] at hv
      obtain ⟨p, hp, hfp⟩ := hv
      rw [Option.map_eq_some'] at hfp
      obtain ⟨w, hw, hpw⟩ := hfp
      injection hpw with hcid hv'
      -- p comes from some original record q with the same key cid
      simp only [PowerAllocator.lazy_init] at hp
      rw [List.mem_map] at hp
      obtain ⟨q, hq, hgq⟩ := hp
      have hq1 : q.1 = cid := by
        have := congrArg Prod.fst hgq
        simpa [hcid] using this
      have hq2 : q.2 = s := by
        apply nodup_keys_eq hnd _ hs
        rw [← hq1]
        simpa using hq
      have : p.2 = s.postInit := by
        have := congrArg Prod.snd hgq
        simp at this
        rw [← this, hq2]
      rw [this, heq, hnone] at hw
      cases hw

theorem update_allocation_participation_witness :
    (exPA.chargers.map Prod.fst).Nodup ∧
    ((∀ cid v, (cid, v) ∈ (exPA.update_allocation ⟨-8,-2,2⟩).2 →
        ∃ s, (cid, s) ∈ exPA.lazy_init.chargers ∧
          s.charger.can_charge = true ∧ s.initialized = true) ∧
     (∀ cid s, (cid, s) ∈ exPA.chargers → (s.postInit).participating = false →
        (cid, s) ∈ (exPA.update_allocation ⟨-8,-2,2⟩).1.chargers ∧
        ∀ v, (cid, v) ∉ (exPA.update_allocation ⟨-8,-2,2⟩).2)) :=
  ⟨by decide, update_allocation_participation exPA ⟨-8,-2,2⟩ (by decide)⟩

/-- Claim C4 counterexample: a device that is still uninitialized at the
moment `update_allocation` is called (it is initialized lazily during the
pass, exactly as in `test_multiple_chargers_allocation`) does appear in the
returned mapping, refuting the claim that a device appears only if it is
initialized at the time of the call. -/
theorem update_allocation_uninitialized_participates :
    (lookupState exPA0.chargers "charger1").map ChargerState.initialized =
      some false ∧
    ("charger1", PerPhase.const 2) ∈ (exPA0.update_allocation ⟨-8,-2,2⟩).2 := by
  decide

/-- Claim C5: for a record in the steady active state (device can charge
and the session is already active) with an observable reported limit and a
tracked applied limit, one run of `detect_manual_override` flags an
override and mirrors `requested_current` to the reported limit exactly when
the reported limit differs from the tracked applied limit, and clears the
flag when they match. -/
theorem detect_override_steady_active (s : ChargerState) (a la : PerPhase Int)
    (hc : s.charger.can_charge = true) (hs : s.active_session = true)
    (ha : s.charger.get_current_limit = some a)
    (hla : s.last_applied_current = some la) :
    (a ≠ la →
      (s.detect_manual_override).manual_override_detected = true ∧
      (s.detect_manual_override).requested_current = some a) ∧
    (a = la → (s.detect_manual_override).manual_override_detected = false) := by
  constructor
  · intro hne
    have : ¬ s.last_applied_current = some a := by
      rw [hla]
      intro hcon
      exact hne (Option.some_injective _ hcon.symm)
    simp [ChargerState.detect_manual_override, hc, hs, ha, this]
  · intro heq
    subst heq
    simp [ChargerState.detect_manual_override, hc, hs, ha, hla]

theorem detect_override_steady_active_witness :
    exStateActive.charger.can_charge = true ∧
    exStateActive.active_session = true ∧
    exStateActive.charger.get_current_limit = some ⟨16,16,16⟩ ∧
    exStateActive.last_applied_current = some ⟨10,10,10⟩ ∧
    (((⟨16,16,16⟩ : PerPhase Int) ≠ ⟨10,10,10⟩ →
      (exStateActive.detect_manual_override).manual_override_detected = true ∧
      (exStateActive.detect_manual_override).requested_current = some ⟨16,16,16⟩) ∧
     ((⟨16,16,16⟩ : PerPhase Int) = ⟨10,10,10⟩ →
      (exStateActive.detect_manual_override).manual_override_detected = false)) :=
  ⟨by decide, by decide, by decide, by decide,
   detect_override_steady_active exStateActive ⟨16,16,16⟩ ⟨10,10,10⟩
     (by decide) (by decide) (by decide) (by decide)⟩

/-- Claim C6: for a record without an active session whose device can
charge (session start), `detect_manual_override` resets
`requested_current` to the device's maximum current limit on all phases,
marks the session active and clears the override flag — regardless of the
limit the device currently reports. -/
theorem detect_override_session_start (s : ChargerState) (m : PerPhase Int)
    (hc : s.charger.can_charge = true) (hs : s.active_session = false)
    (hm : s.charger.get_max_current_limit = some m) :
    (s.detect_manual_override).requested_current = some m ∧
    (s.detect_manual_override).active_session = true ∧
    (s.detect_manual_override).manual_override_detected = false := by
  simp [ChargerState.detect_manual_override, hc, hs, hm]

theorem detect_override_session_start_witness :
    exStateIdle.charger.can_charge = true ∧
    exStateIdle.active_session = false ∧
    exStateIdle.charger.get_max_current_limit = some ⟨16,16,16⟩ ∧
    ((exStateIdle.detect_manual_override).requested_current = some ⟨16,16,16⟩ ∧
     (exStateIdle.detect_manual_override).active_session = true ∧
     (exStateIdle.detect_manual_override).manual_override_detected = false) :=
  ⟨by decide, by decide, by decide,
   detect_override_session_start exStateIdle ⟨16,16,16⟩ (by decide) (by decide) (by decide)⟩

/-- Claim C7: registering a charger whose identifier is already present
returns false and leaves the allocator — including the existing record and
the charger object it references — completely unchanged. -/
theorem add_charger_duplicate (pa : PowerAllocator) (c : Charger)
    (h : (lookupState pa.chargers c.id).isSome = true) :
    pa.add_charger c = (false, pa) := by
  simp [PowerAllocator.add_charger, h]

theorem add_charger_duplicate_witness :
    (lookupState exPA.chargers exChargerHigh.id).isSome = true ∧
    exPA.add_charger exChargerHigh = (false, exPA) :=
  ⟨by decide, add_charger_duplicate exPA exChargerHigh (by decide)⟩

/-- Claim C8 (amended): `update_applied_current` sets
`last_applied_current` to the given values and `last_update_time` to the
given timestamp; `update_allocation` never changes the
`last_applied_current` of any already-initialized record (only the
initialization of a not-yet-initialized record writes it outside the
confirmation path). -/
theorem last_applied_writers (pa : PowerAllocator) (avail values : PerPhase Int)
    (cid : String) (ts : Int) :
    (∀ p ∈ pa.chargers, p.2.initialized = true →
       ∃ s, (p.1, s) ∈ (pa.update_allocation avail).1.chargers ∧
         s.last_applied_current = p.2.last_applied_current) ∧
    (∀ p ∈ pa.chargers, p.1 = cid →
       (cid, { p.2 with
               last_applied_current := some values
               last_update_time := some ts }) ∈
         (pa.update_applied_current cid values ts).chargers) := by
  constructor
  · intro p hp hinit
    have heq : p.2.postInit = p.2 := postInit_of_initialized p.2 hinit
    have hmem1 : (p.1, p.2) ∈ pa.lazy_init.chargers := by
      simp only [PowerAllocator.lazy_init]
      rw [List.mem_map]
      exact ⟨p, hp, by simp [heq]⟩
    simp only [PowerAllocator.update_allocation]
    cases halloc : allocateFor avail pa.lazy_init.phase_totals p.2 with
    | none =>
        refine ⟨p.2, ?_, rfl⟩
        rw [List.mem_map]
        refine ⟨(p.1, p.2), hmem1, ?_⟩
        simp [halloc]
    | some v =>
        refine ⟨{ p.2 with last_calculated_current := some v }, ?_, rfl⟩
        rw [List.mem_map]
        refine ⟨(p.1, p.2), hmem1, ?_⟩
        simp [halloc]
  · intro p hp hcid
    simp only [PowerAllocator.update_applied_current]
    rw [List.mem_map]
    refine ⟨p, hp, ?_⟩
    simp [hcid]

theorem last_applied_writers_witness :
    (∃ s, ("charger1", s) ∈ (exPA.update_allocation ⟨-8,-2,2⟩).1.chargers ∧
       s.last_applied_current =
         (ChargerState.init_from_device { charger := exCharger }).last_applied_current) ∧
    ("charger1", { (ChargerState.init_from_device { charger := exCharger }) with
        last_applied_current := some ⟨5,5,5⟩
        last_update_time := some 123 }) ∈
      (exPA.update_applied_current "charger1" ⟨5,5,5⟩ 123).chargers :=
  ⟨(last_applied_writers exPA ⟨-8,-2,2⟩ ⟨5,5,5⟩ "charger1" 123).1
      ("charger1", ChargerState.init_from_device { charger := exCharger })
      (by decide) (by decide),
   (last_applied_writers exPA ⟨-8,-2,2⟩ ⟨5,5,5⟩ "charger1" 123).2
      ("charger1", ChargerState.init_from_device { charger := exCharger })
      (by decide) (by decide)⟩

/-- Claim C8 counterexample: `update_allocation` does change a device's
`last_applied_current` when it lazily initializes a not-yet-initialized
record — before the call the field is absent, afterwards it holds the
device's reported limit — refuting the claim that `update_allocation`
never changes any device's `last_applied_current`. -/
theorem update_allocation_writes_last_applied :
    (lookupState exPA0.chargers "charger1").map ChargerState.last_applied_current =
      some none ∧
    (lookupState (exPA0.update_allocation ⟨-8,-2,2⟩).1.chargers "charger1").map
        ChargerState.last_applied_current = some (some ⟨10,10,10⟩) := by
  decide

/-- Claim C9: when the device's current-limit read yields no value,
`register_and_initialize` still leaves the device registered under its
identifier, with `initialized = false`; the model is a total function, so
no error is raised. -/
theorem add_charger_and_init_read_fails (pa : PowerAllocator) (c : Charger)
    (hnew : lookupState pa.chargers c.id = none)
    (hfail : c.get_current_limit = none) :
    lookupState ((pa.add_charger_and_init c).2).chargers c.id =
      some { charger := c } ∧
    ({ charger := c } : ChargerState).initialized = false := by
  have hns : (lookupState pa.chargers c.id).isSome = false := by
    rw [hnew]; rfl
  have hinit : ChargerState.init_from_device { charger := c } =
      ({ charger := c } : ChargerState) := by
    simp [ChargerState.init_from_device, hfail]
  have h2 : (pa.add_charger_and_init c).2 =
      ⟨pa.chargers ++ [(c.id, ChargerState.init_from_device { charger := c })]⟩ := by
    simp [PowerAllocator.add_charger_and_init, hns]
  constructor
  · rw [h2]
    simp only [hinit]
    exact lookupState_append_self pa.chargers c.id { charger := c } hnew
  · rfl

theorem add_charger_and_init_read_fails_witness :
    lookupState emptyPA.chargers exChargerNoRead.id = none ∧
    exChargerNoRead.get_current_limit = none ∧
    (lookupState ((emptyPA.add_charger_and_init exChargerNoRead).2).chargers
        exChargerNoRead.id = some { charger := exChargerNoRead } ∧
     ({ charger := exChargerNoRead } : ChargerState).initialized = false) :=
  ⟨by decide, by decide,
   add_charger_and_init_read_fails emptyPA exChargerNoRead (by decide) (by decide)⟩

/-- Claim C10: plain registration of a fresh identifier succeeds and
creates a record keyed by the charger's id with `initialized = false` and
`requested_current`, `last_calculated_current`, `last_applied_current` all
absent. -/
theorem add_charger_fresh (pa : PowerAllocator) (c : Charger)
    (hnew : lookupState pa.chargers c.id = none) :
    (pa.add_charger c).1 = true ∧
    lookupState (pa.add_charger c).2.chargers c.id =
      some { charger := c, initialized := false, requested_current := none,
             last_calculated_current := none, last_applied_current := none,
             last_update_time := none, manual_override_detected := false,
             active_session := false } := by
  have hns : (lookupState pa.chargers c.id).isSome = false := by
    rw [hnew]; rfl
  have h2 : (pa.add_charger c).2 =
      ⟨pa.chargers ++ [(c.id, { charger := c })]⟩ := by
    simp [PowerAllocator.add_charger, hns]
  constructor
  · simp [PowerAllocator.add_charger, hns]
  · rw [h2]
    exact lookupState_append_self pa.chargers c.id { charger := c } hnew

theorem add_charger_fresh_witness :
    lookupState emptyPA.chargers exCharger.id = none ∧
    ((emptyPA.add_charger exCharger).1 = true ∧
     lookupState (emptyPA.add_charger exCharger).2.chargers exCharger.id =
       some { charger := exCharger, initialized := false, requested_current := none,
              last_calculated_current := none, last_applied_current := none,
              last_update_time := none, manual_override_detected := false,
              active_session := false }) :=
  ⟨by decide, add_charger_fresh emptyPA exCharger (by decide)⟩

end EvseLB
